import Mathlib

set_option autoImplicit false

/-!
Verification development for the realtime collaborative-coding frontend
(`frontend/src/screens/Project.jsx` and `frontend/src/config/socket.js`).

The JavaScript code is shallowly embedded: JS values become the inductive
type `Jv`, JS objects become insertion-ordered association lists, thrown
exceptions become `Except.error`, and the asynchronous mount / socket
behaviour becomes explicit state-transition systems driven by event lists.
-/

/-- Untyped JavaScript values, as far as the embedded code distinguishes
them: `null`, `undefined`, booleans, numbers (kept as their JSON lexeme,
since the code never computes with them), strings, arrays and objects.
Objects are insertion-ordered association lists, mirroring JS property
order; well-formed JS objects have pairwise-distinct keys. -/
inductive Jv where
  | null
  | undefined
  | bool (b : Bool)
  | num (lit : String)
  | str (s : String)
  | arr (elems : List Jv)
  | obj (fields : List (String × Jv))

/-- The only JS exception the embedded fragments can throw: the
`TypeError` raised by a property access on `undefined` or `null`. -/
inductive JErr where
  | typeError
deriving DecidableEq

/-- Is the first list a leading segment of the second (`List.isPrefixOf`,
re-implemented so that all lemmas about it are self-contained). -/
def leadChars : List Char → List Char → Bool
  | [], _ => true
  | _ :: _, [] => false
  | a :: as, b :: bs => if a = b then leadChars as bs else false

/-- Is the first list a contiguous segment of the second. -/
def subChars : List Char → List Char → Bool
  | sub, [] => leadChars sub []
  | sub, l@(_ :: rest) => leadChars sub l || subChars sub rest

/-- JavaScript `s.includes(sub)`: substring containment. -/
def jsIncludes (s sub : String) : Bool :=
  subChars sub.data s.data

/-- JavaScript `s.toLowerCase()` (ASCII range, which is all the embedded
code ever feeds it). -/
def jsToLower (s : String) : String :=
  String.mk (s.data.map Char.toLower)

/-- JavaScript `s.length` (code-point count in this model). -/
def jsLength (s : String) : Nat :=
  s.data.length

/-- JavaScript `s.substring(0, n)`. -/
def jsTake (s : String) (n : Nat) : String :=
  String.mk (s.data.take n)

/-- Property lookup in a JS object's ordered field list: the first entry
with the given key (JS objects never hold duplicate keys). -/
def objLookup : List (String × Jv) → String → Option Jv
  | [], _ => none
  | (k', v) :: rest, k => if k' = k then some v else objLookup rest k

/-- Does the field list contain the key. -/
def objHasKey : List (String × Jv) → String → Bool
  | [], _ => false
  | (k', _) :: rest, k => if k' = k then true else objHasKey rest k

/-- Replace the value stored under a present key, keeping its position. -/
def objUpdateGo : List (String × Jv) → String → Jv → List (String × Jv)
  | [], _, _ => []
  | (k', v') :: rest, k, v =>
    if k' = k then (k, v) :: objUpdateGo rest k v else (k', v') :: objUpdateGo rest k v

/-- JS object write `obj[k] = v` / spread-override `\x7b...obj, [k]: v\x7d`:
a present key keeps its insertion position, a fresh key is appended. -/
def objUpdate (fs : List (String × Jv)) (k : String) (v : Jv) : List (String × Jv) :=
  if objHasKey fs k then objUpdateGo fs k v else fs ++ [(k, v)]

/-- JS member access `v[k]`: throws `TypeError` on `undefined`/`null`,
yields the field (or `undefined`) on objects, and `undefined` on other
primitives. -/
def jsMember (v : Jv) (k : String) : Except JErr Jv :=
  match v with
  | .obj fs => .ok ((objLookup fs k).getD .undefined)
  | .undefined => .error .typeError
  | .null => .error .typeError
  | _ => .ok .undefined

/-- Enumerable own fields contributed by `...v` inside an object literal:
an object's fields; `undefined`, `null` and the primitives the code can
actually reach here contribute nothing. -/
def spreadFields : Jv → List (String × Jv)
  | .obj fs => fs
  | _ => []

/-- The object `\x7bfile: \x7bcontents: c\x7d\x7d` the edit handler writes
for a saved file. -/
def mkFileLeaf (contents : String) : Jv :=
  .obj [("file", .obj [("contents", .str contents)])]

/-- JavaScript `path.split('/')`. -/
def splitSlash : List Char → List (List Char)
  | [] => [[]]
  | c :: rest =>
    if c = '/' then [] :: splitSlash rest
    else
      match splitSlash rest with
      | [] => [[c]]
      | s :: ss => (c :: s) :: ss

/-- The `onBlur` file-edit handler of `Project.jsx` (lines 806-840),
as the tree transformation it performs. A nested path `dir/name` is split
at `/`; the handler evaluates `fileTree[dir].directory`, which throws a
`TypeError` when `fileTree[dir]` is `undefined`, and otherwise rebuilds
the tree with spreads, writing `\x7bfile: \x7bcontents\x7d\x7d` under
`name`. A path without `/` overwrites the root-level entry directly.
`Except.error` models the handler throwing (in which case `setFileTree`
never runs and the canonical tree is unchanged). -/
def editFile (fileTree : Jv) (path contents : String) : Except JErr Jv :=
  if jsIncludes path "/" then
    let segs := splitSlash path.data
    let dir := String.mk (segs.headD [])
    let file := String.mk ((segs.drop 1).headD [])
    match jsMember fileTree dir with
    | .error e => .error e
    | .ok node =>
      match jsMember node "directory" with
      | .error e => .error e
      | .ok dchildren =>
        .ok (.obj (objUpdate (spreadFields fileTree) dir
          (.obj (objUpdate (spreadFields node) "directory"
            (.obj (objUpdate (spreadFields dchildren) file (mkFileLeaf contents)))))))
  else
    .ok (.obj (objUpdate (spreadFields fileTree) path (mkFileLeaf contents)))

/-- JSON whitespace (`space`, `tab`, `newline`, `carriage return`). -/
def isJsonWs (c : Char) : Bool :=
  c = ' ' || c = '\t' || c = '\n' || c = '\r'

/-- Skip leading JSON whitespace. -/
def skipWs (cs : List Char) : List Char :=
  cs.dropWhile isJsonWs

/-- Value of a hexadecimal digit. -/
def hexVal (c : Char) : Option Nat :=
  if '0' ≤ c ∧ c ≤ '9' then some (c.toNat - '0'.toNat)
  else if 'a' ≤ c ∧ c ≤ 'f' then some (c.toNat - 'a'.toNat + 10)
  else if 'A' ≤ c ∧ c ≤ 'F' then some (c.toNat - 'A'.toNat + 10)
  else none

/-- Turn a decoded code unit into a `Char`; lone surrogates (which
`JSON.parse` tolerates but Lean's `Char` cannot carry) are approximated
by U+FFFD. -/
def codeUnitChar (n : Nat) : Char :=
  if n < 0xd800 ∨ (0xdfff < n ∧ n < 0x110000) then Char.ofNat n else Char.ofNat 0xfffd

/-- Scanner for the body of a JSON string literal (after its opening
quote): accumulates decoded characters in reverse, stops at the closing
quote, decodes the standard escapes, and rejects raw control characters
(as `JSON.parse` does), bad escapes and unterminated strings. -/
def psbGo : List Char → List Char → Option (List Char × List Char)
  | _, [] => none
  | acc, '"' :: rest => some (acc, rest)
  | acc, '\\' :: '"' :: rest => psbGo ('"' :: acc) rest
  | acc, '\\' :: '\\' :: rest => psbGo ('\\' :: acc) rest
  | acc, '\\' :: '/' :: rest => psbGo ('/' :: acc) rest
  | acc, '\\' :: 'b' :: rest => psbGo ('\x08' :: acc) rest
  | acc, '\\' :: 'f' :: rest => psbGo ('\x0c' :: acc) rest
  | acc, '\\' :: 'n' :: rest => psbGo ('\n' :: acc) rest
  | acc, '\\' :: 'r' :: rest => psbGo ('\r' :: acc) rest
  | acc, '\\' :: 't' :: rest => psbGo ('\t' :: acc) rest
  | acc, '\\' :: 'u' :: a :: b :: c :: d :: rest =>
    match hexVal a, hexVal b, hexVal c, hexVal d with
    | some va, some vb, some vc, some vd =>
      psbGo (codeUnitChar (((va * 16 + vb) * 16 + vc) * 16 + vd) :: acc) rest
    | _, _, _, _ => none
  | _, '\\' :: _ => none
  | acc, c :: rest => if c.toNat < 0x20 then none else psbGo (c :: acc) rest

/-- Body of a JSON string literal after its opening quote. Returns the
decoded text and the remaining input; `none` on a malformed literal. -/
def parseStringBody (cs : List Char) : Option (String × List Char) :=
  (psbGo [] cs).map (fun p => (String.mk p.1.reverse, p.2))

/-- Optional `.digits` part of a JSON number; `some lexemePart` on
success, `none` for a bare dot. -/
def fracPart : List Char → Option (List Char) × List Char
  | '.' :: r =>
    let ds := r.takeWhile Char.isDigit
    if ds.isEmpty then (none, r) else (some ('.' :: ds), r.dropWhile Char.isDigit)
  | r => (some [], r)

/-- Optional `e`/`E` exponent part of a JSON number; `none` for a
malformed exponent. -/
def expPart : List Char → Option (List Char) × List Char
  | e :: r =>
    if e = 'e' ∨ e = 'E' then
      let (sg, r1) :=
        match r with
        | '+' :: rr => (['+'], rr)
        | '-' :: rr => (['-'], rr)
        | _ => (([] : List Char), r)
      let ds := r1.takeWhile Char.isDigit
      if ds.isEmpty then (none, r1) else (some (e :: (sg ++ ds)), r1.dropWhile Char.isDigit)
    else (some [], e :: r)
  | [] => (some [], [])

/-- Lex a JSON number (sign, integer part with no leading zero, optional
fraction and exponent). Returns the lexeme and the remaining input. -/
def parseNumLit (cs : List Char) : Option (List Char × List Char) :=
  let (sgn, cs1) :=
    match cs with
    | '-' :: r => (['-'], r)
    | _ => (([] : List Char), cs)
  match cs1 with
  | '0' :: r =>
    let (frac, r1) := fracPart r
    match frac with
    | none => none
    | some f =>
      let (ex, r2) := expPart r1
      match ex with
      | none => none
      | some e => some (sgn ++ ['0'] ++ f ++ e, r2)
  | c :: r =>
    if c.isDigit then
      let ds := (c :: r).takeWhile Char.isDigit
      let rest := (c :: r).dropWhile Char.isDigit
      let (frac, r1) := fracPart rest
      match frac with
      | none => none
      | some f =>
        let (ex, r2) := expPart r1
        match ex with
        | none => none
        | some e => some (sgn ++ ds ++ f ++ e, r2)
    else none
  | [] => none

mutual

/-- Recursive-descent model of `JSON.parse`'s value grammar. The fuel
argument dominates the nesting the parser can walk through; the top-level
entry point supplies more fuel than any input of that length can use, so
fuel exhaustion never shows through. -/
def parseValue : Nat → List Char → Option (Jv × List Char)
  | 0, _ => none
  | fuel + 1, cs =>
    match skipWs cs with
    | 'n' :: 'u' :: 'l' :: 'l' :: rest => some (.null, rest)
    | 't' :: 'r' :: 'u' :: 'e' :: rest => some (.bool true, rest)
    | 'f' :: 'a' :: 'l' :: 's' :: 'e' :: rest => some (.bool false, rest)
    | '"' :: rest => (parseStringBody rest).map (fun p => (.str p.1, p.2))
    | '\x7b' :: rest => parseObjBody fuel rest
    | '[' :: rest => parseArrBody fuel rest
    | cs' => (parseNumLit cs').map (fun p => (.num (String.mk p.1), p.2))

/-- Object body after `\x7b`. Duplicate keys overwrite in place, as JS
property assignment does. -/
def parseObjBody : Nat → List Char → Option (Jv × List Char)
  | 0, _ => none
  | fuel + 1, cs =>
    match skipWs cs with
    | '\x7d' :: rest => some (.obj [], rest)
    | _ =>
      (parseMembers fuel cs).map
        (fun p => (.obj (p.1.foldl (fun acc kv => objUpdate acc kv.1 kv.2) []), p.2))

/-- One or more `"key": value` members, ending at `\x7d`. -/
def parseMembers : Nat → List Char → Option (List (String × Jv) × List Char)
  | 0, _ => none
  | fuel + 1, cs =>
    match skipWs cs with
    | '"' :: rest =>
      match parseStringBody rest with
      | none => none
      | some (key, r1) =>
        match skipWs r1 with
        | ':' :: r2 =>
          match parseValue fuel r2 with
          | none => none
          | some (v, r3) =>
            match skipWs r3 with
            | ',' :: r4 => (parseMembers fuel r4).map (fun p => ((key, v) :: p.1, p.2))
            | '\x7d' :: r4 => some ([(key, v)], r4)
            | _ => none
        | _ => none
    | _ => none

/-- Array body after `[`. -/
def parseArrBody : Nat → List Char → Option (Jv × List Char)
  | 0, _ => none
  | fuel + 1, cs =>
    match skipWs cs with
    | ']' :: rest => some (.arr [], rest)
    | _ => (parseElems fuel cs).map (fun p => (.arr p.1, p.2))

/-- One or more array elements, ending at `]`. -/
def parseElems : Nat → List Char → Option (List Jv × List Char)
  | 0, _ => none
  | fuel + 1, cs =>
    match parseValue fuel cs with
    | none => none
    | some (v, r1) =>
      match skipWs r1 with
      | ',' :: r2 => (parseElems fuel r2).map (fun p => (v :: p.1, p.2))
      | ']' :: r2 => some ([v], r2)
      | _ => none

end

/-- Model of `JSON.parse`: parse one value and require only whitespace
to remain. `none` models the thrown `SyntaxError`. -/
def jsonParse (s : String) : Option Jv :=
  match parseValue (2 * s.data.length + 4) s.data with
  | some (v, rest) => if (skipWs rest).isEmpty then some v else none
  | none => none

/-- The tier-1 template short-circuit's condition (`Project.jsx` line 18):
the raw payload contains the quoted tree-presence marker `"fileTree"`
together with `react` or `package.json`. -/
def tierOneCond (s : String) : Bool :=
  jsIncludes s "\"fileTree\"" && (jsIncludes s "react" || jsIncludes s "package.json")

/-- Fixed notice body returned by the tier-1 short-circuit. -/
def reactNotice : String :=
  "Creating React application files. Check the file explorer panel."

/-- Fixed notice body returned by the later `fileTree`-flag fallback. -/
def structureNotice : String :=
  "```\nFile structure created. Check the file explorer panel.\n```"

/-- Diagnostic marker prefixed to the truncated-excerpt fallback. -/
def failedHeader : String :=
  "AI response (JSON parsing failed):\n\n```\n"

/-- JavaScript `\s` for the whitespace the payloads can actually carry. -/
def isJsWsChar (c : Char) : Bool :=
  c = ' ' || c = '\t' || c = '\n' || c = '\r' || c = '\x0b' || c = '\x0c'

/-- Does the input start with the anchored part of the extraction regex,
`"text"\s*:\s*"`; if so, return what follows the opening quote. -/
def matchTextKey : List Char → Option (List Char)
  | '"' :: 't' :: 'e' :: 'x' :: 't' :: '"' :: rest =>
    match rest.dropWhile isJsWsChar with
    | ':' :: r2 =>
      match r2.dropWhile isJsWsChar with
      | '"' :: r3 => some r3
      | _ => none
    | _ => none
  | _ => none

/-- Leftmost occurrence of the extraction regex's anchored part. -/
def findTextKey : List Char → Option (List Char)
  | [] => none
  | cs@(_ :: rest) =>
    match matchTextKey cs with
    | some r => some r
    | none => findTextKey rest

/-- The capture of the lazy group `((?:[^"\\]|\\.|[\s\S])*?)` up to the
terminator `(?:"[,\x7d]|$)`: scanning stops at the first quote followed by
`,` or `\x7d`, or at the end of the input; an escape consumes two
characters at once (so an escaped quote cannot terminate the scan), and a
quote not followed by `,`/`\x7d` is swallowed by the `[\s\S]` branch. -/
def scanTextGroup : List Char → List Char
  | [] => []
  | ['"'] => ['"']
  | '"' :: c :: rest =>
    if c = ',' || c = '\x7d' then [] else '"' :: scanTextGroup (c :: rest)
  | '\\' :: c :: rest => '\\' :: c :: scanTextGroup rest
  | [c] => [c]
  | c :: rest => c :: scanTextGroup rest

/-- Model of `jsonString.match(/"text"\s*:\s*"((?:[^"\\]|\\.|[\s\S])*?)(?:"[,\x7d]|$)/)`
(`Project.jsx` line 47): the captured group of the leftmost match, or
`none` when the anchored part never occurs (in which case the whole regex
cannot match either). -/
def extractTextField (s : String) : Option String :=
  (findTextKey s.data).map (fun r => String.mk (scanTextGroup r))

/-- One global pass of `.replace(/\\"/g, '"')`. -/
def replBsQuote : List Char → List Char
  | '\\' :: '"' :: rest => '"' :: replBsQuote rest
  | c :: rest => c :: replBsQuote rest
  | [] => []

/-- One global pass of `.replace(/\\n/g, '\n')`. -/
def replBsN : List Char → List Char
  | '\\' :: 'n' :: rest => '\n' :: replBsN rest
  | c :: rest => c :: replBsN rest
  | [] => []

/-- The two sequential unescaping passes applied to the extracted text. -/
def unescapeText (s : String) : String :=
  String.mk (replBsN (replBsQuote s.data))

/-- Tail of the recovery chain (`Project.jsx` lines 53-68), reached when
the regex extraction produced nothing usable: a `fileTree` marker yields
the fixed structure notice plus presence flag, otherwise the raw input is
wrapped (truncated to 300 characters) under the diagnostic header. -/
def sanitizeFallback (s : String) : Jv :=
  if jsIncludes s "\"fileTree\"" then
    .obj [("text", .str structureNotice), ("fileTree", .bool true)]
  else
    .obj [("text", .str (failedHeader
      ++ (if 300 < jsLength s then jsTake s 300 ++ "..." else s) ++ "\n```"))]

/-- The resilient decoder `sanitizeJsonString` of `Project.jsx`
(lines 11-74). Non-strings pass through unchanged. For strings: the
tier-1 template short-circuit fires first; then a strict `JSON.parse`
whose result is returned verbatim; on parse failure, the regex text-field
extraction (kept only when the capture is non-empty, mirroring
`if (textMatch && textMatch[1])`); then the fallback chain. The outer
`try/catch` of the source is unreachable (no operation inside it can
throw once `JSON.parse` is handled), so it has no counterpart here. -/
def sanitizeJsonString : Jv → Jv
  | .str s =>
    if tierOneCond s then
      .obj [("text", .str reactNotice), ("fileTree", .bool true)]
    else
      match jsonParse s with
      | some parsed => parsed
      | none =>
        match extractTextField s with
        | some t => if t = "" then sanitizeFallback s else .obj [("text", .str (unescapeText t))]
        | none => sanitizeFallback s
  | v => v

/-- Shape test for the spec's `DecodedContent` union: an object whose
`text` field is a string and whose `fileTree` field is absent (`Text` /
`Unparseable`, which the code renders identically), the boolean flag
(`TreePresenceFlag`), or a structural map (`TextWithTree`). -/
def isDecodedContent (v : Jv) : Bool :=
  match v with
  | .obj fs =>
    match objLookup fs "text", objLookup fs "fileTree" with
    | some (.str _), none => true
    | some (.str _), some (.bool true) => true
    | some (.str _), some (.obj _) => true
    | _, _ => false
  | _ => false

/-- Shape test for the `TextWithTree` variant alone: the decoded value
carries a structurally parsed tree map. -/
def isTextWithTree (v : Jv) : Bool :=
  match v with
  | .obj fs =>
    match objLookup fs "fileTree" with
    | some (.obj _) => true
    | _ => false
  | _ => false

/-- The directives the chat handler can recognize in raw user text
(`Project.jsx` lines 533-565). -/
inductive Directive where
  | createReactApp
  | createExpressServer
deriving DecidableEq

/-- The direct-command detection of the `receiveMessage` handler: run only
for messages not authored by the automated `ai` participant, it lowercases
the raw text and matches the fixed trigger phrases by substring; the react
trigger is checked first. -/
def recognize (senderIsAutomated : Bool) (raw : String) : Option Directive :=
  if senderIsAutomated then none
  else
    let lowerMsg := jsToLower raw
    if jsIncludes lowerMsg "@ai create react app" then some .createReactApp
    else if jsIncludes lowerMsg "@ai create express server"
        || jsIncludes lowerMsg "@ai create an express server" then some .createExpressServer
    else none

/-- State of the file-tree synchronizer: the canonical tree held in the
`fileTree` React state, the tree most recently applied inside the sandbox,
and the trees whose `webContainer.mount` promises are still pending. -/
structure SyncState where
  fileTree : Jv
  mounted : Option Jv
  pending : List Jv

/-- Synchronizer events: a `replaceTree` request (the handler calls
`webContainer.mount(tree)` and registers a completion callback), and the
settling of the `i`-th pending mount (the sandbox finishes applying that
tree and the callback runs `setFileTree(tree)`). -/
inductive SyncEv where
  | replace (t : Jv)
  | settle (i : Nat)

/-- One synchronizer step, from `webContainer.mount(message.fileTree)
.then(() => setFileTree(message.fileTree))` (`Project.jsx` lines 586-592,
and identically for the template mounts at lines 312-322): a replace only
adds a pending mount; a settle applies its own tree to the sandbox and
then to the canonical state, with no superseding check of any kind. -/
def syncStep (st : SyncState) : SyncEv → SyncState
  | .replace t => { st with pending := st.pending ++ [t] }
  | .settle i =>
    match st.pending.get? i with
    | some t => { fileTree := t, mounted := some t, pending := st.pending.eraseIdx i }
    | none => st

/-- Run the synchronizer over a list of observed events. -/
def syncRun (st : SyncState) (evs : List SyncEv) : SyncState :=
  evs.foldl syncStep st

/-- State of the socket module (`frontend/src/config/socket.js`): whether
the module-level `socket` variable currently holds a socket, and the
module-level `reconnectAttempts` counter. -/
structure SockState where
  socketExists : Bool
  reconnectAttempts : Nat

/-- The fixed attempt cap `MAX_RECONNECT_ATTEMPTS` of `socket.js`. -/
def maxReconnectAttempts : Nat := 5

/-- Events of the socket module: a call to `initializeSocket` (with a
truthy or falsy `projectId`), the socket firing `connect_error` or
`connect`, and a call to `disconnect`. -/
inductive SockEv where
  | initSocket (validProjectId : Bool)
  | connectError
  | connectOk
  | disconnectSocket

/-- One socket-module step, from `socket.js` lines 7-52 and 74-79:
`initializeSocket` with a valid id replaces the socket but leaves
`reconnectAttempts` untouched; the `connect_error` handler does an
unconditional `reconnectAttempts++` (the cap only selects a log message);
the `connect` handler resets the counter to 0; `disconnect` clears the
socket. Handlers fire only while a socket exists. -/
def sockStep (st : SockState) : SockEv → SockState
  | .initSocket valid =>
    if valid then { socketExists := true, reconnectAttempts := st.reconnectAttempts } else st
  | .connectError =>
    if st.socketExists then { st with reconnectAttempts := st.reconnectAttempts + 1 } else st
  | .connectOk =>
    if st.socketExists then { st with reconnectAttempts := 0 } else st
  | .disconnectSocket => { st with socketExists := false }

/-- The module's load-time state: `socket = null`, `reconnectAttempts = 0`. -/
def sockInit : SockState :=
  { socketExists := false, reconnectAttempts := 0 }

/-- Run the socket module over a list of observed events. -/
def sockRun (evs : List SockEv) : SockState :=
  evs.foldl sockStep sockInit

/-- Concrete trees used to exhibit the mount race. -/
def cexTreeA : Jv := Jv.obj [("a.txt", mkFileLeaf "x")]

/-- Second, distinct tree for the mount race. -/
def cexTreeB : Jv := Jv.obj []

/-- Event trace reaching a socket state past the reconnect cap: a first
initialization whose five automatic retries all fail, then the manual
retry path (`retryConnection` → `initializeSocket`, which does not touch
the counter) followed by one more failure. -/
def sockCexTrace : List SockEv :=
  [.initSocket true] ++ List.replicate 5 .connectError ++ [.initSocket true, .connectError]

theorem stringData_append (a b : String) : (a ++ b).data = a.data ++ b.data := by
  cases a
  cases b
  rfl

theorem stringMk_data (s : String) : String.mk s.data = s := rfl

theorem leadChars_append_self (t b : List Char) : leadChars t (t ++ b) = true := by
  induction t with
  | nil => rfl
  | cons c t ih => simp [leadChars, ih]

theorem subChars_middle (t a b : List Char) : subChars t (a ++ (t ++ b)) = true := by
  induction a with
  | nil =>
    cases t with
    | nil => cases b <;> simp [subChars, leadChars]
    | cons c t' =>
      have h := leadChars_append_self (c :: t') b
      simp only [List.cons_append] at h
      simp [subChars, h]
  | cons c a ih => simp [subChars, ih]

theorem splitSlash_append (d f : List Char) (h : '/' ∉ d) :
    splitSlash (d ++ '/' :: f) = d :: splitSlash f := by
  induction d with
  | nil => simp [splitSlash]
  | cons c d ih =>
    have hc : c ≠ '/' := fun hc => h (hc ▸ List.mem_cons_self c d)
    have hd : '/' ∉ d := fun hd => h (List.mem_cons_of_mem c hd)
    simp [splitSlash, hc, ih hd]

theorem splitSlash_single (f : List Char) (h : '/' ∉ f) : splitSlash f = [f] := by
  induction f with
  | nil => rfl
  | cons c f ih =>
    have hc : c ≠ '/' := fun hc => h (hc ▸ List.mem_cons_self c f)
    have hf : '/' ∉ f := fun hf => h (List.mem_cons_of_mem c hf)
    simp [splitSlash, hc, ih hf]

theorem pathData (dir file : String) :
    (dir ++ "/" ++ file).data = dir.data ++ ('/' :: file.data) := by
  rw [stringData_append, stringData_append]
  simp

theorem path_hasSlash (dir file : String) : jsIncludes (dir ++ "/" ++ file) "/" = true := by
  unfold jsIncludes
  rw [pathData]
  have : ('/' : Char) :: file.data = ['/'] ++ file.data := rfl
  rw [this]
  exact subChars_middle ['/'] dir.data file.data

theorem path_split (dir file : String) (hd : '/' ∉ dir.data) (hf : '/' ∉ file.data) :
    splitSlash (dir ++ "/" ++ file).data = [dir.data, file.data] := by
  rw [pathData, splitSlash_append dir.data file.data hd, splitSlash_single file.data hf]

theorem path_split_data (dir file : String) (hd : '/' ∉ dir.data) (hf : '/' ∉ file.data) :
    splitSlash (dir.data ++ '/' :: file.data) = [dir.data, file.data] := by
  rw [splitSlash_append dir.data file.data hd, splitSlash_single file.data hf]

theorem objLookup_updateGo_self (fs : List (String × Jv)) (k : String) (v : Jv)
    (h : objHasKey fs k = true) : objLookup (objUpdateGo fs k v) k = some v := by
  induction fs with
  | nil => simp [objHasKey] at h
  | cons kv rest ih =>
    obtain ⟨k', v'⟩ := kv
    by_cases hk : k' = k
    · simp [objUpdateGo, hk, objLookup]
    · simp only [objHasKey, if_neg hk] at h
      simp [objUpdateGo, hk, objLookup, ih h]

theorem objLookup_updateGo_ne (fs : List (String × Jv)) (k : String) (v : Jv) (k' : String)
    (h : k' ≠ k) : objLookup (objUpdateGo fs k v) k' = objLookup fs k' := by
  induction fs with
  | nil => rfl
  | cons kv rest ih =>
    obtain ⟨k1, v1⟩ := kv
    by_cases hk : k1 = k
    · simp [objUpdateGo, hk, objLookup, Ne.symm h, ih]
    · simp [objUpdateGo, hk, objLookup, ih]

theorem objLookup_append_self (fs : List (String × Jv)) (k : String) (v : Jv)
    (h : objHasKey fs k = false) : objLookup (fs ++ [(k, v)]) k = some v := by
  induction fs with
  | nil => simp [objLookup]
  | cons kv rest ih =>
    obtain ⟨k1, v1⟩ := kv
    by_cases hk : k1 = k
    · simp [objHasKey, hk] at h
    · simp only [objHasKey, if_neg hk] at h
      simp [objLookup, hk, ih h]

theorem objLookup_append_ne (fs : List (String × Jv)) (k : String) (v : Jv) (k' : String)
    (h : k' ≠ k) : objLookup (fs ++ [(k, v)]) k' = objLookup fs k' := by
  induction fs with
  | nil => simp [objLookup, Ne.symm h]
  | cons kv rest ih =>
    obtain ⟨k1, v1⟩ := kv
    by_cases hk : k1 = k'
    · simp [objLookup, hk]
    · simp [objLookup, hk, ih]

theorem objLookup_update_self (fs : List (String × Jv)) (k : String) (v : Jv) :
    objLookup (objUpdate fs k v) k = some v := by
  unfold objUpdate
  by_cases h : objHasKey fs k = true
  · simp [h, objLookup_updateGo_self fs k v h]
  · have h' : objHasKey fs k = false := by simpa using h
    simp [h', objLookup_append_self fs k v h']

theorem objLookup_update_ne (fs : List (String × Jv)) (k : String) (v : Jv) (k' : String)
    (h : k' ≠ k) : objLookup (objUpdate fs k v) k' = objLookup fs k' := by
  unfold objUpdate
  by_cases hh : objHasKey fs k
  · simp [hh, objLookup_updateGo_ne fs k v k' h]
  · simp [hh, objLookup_append_ne fs k v k' h]

theorem isDecodedContent_fallback (s : String) :
    isDecodedContent (sanitizeFallback s) = true := by
  unfold sanitizeFallback
  split
  · rfl
  · rfl

theorem sockRun_replicate_errors (n a : Nat) :
    (List.replicate n SockEv.connectError).foldl sockStep ⟨true, a⟩ = ⟨true, a + n⟩ := by
  induction n generalizing a with
  | zero => rfl
  | succ n ih =>
    rw [List.replicate_succ, List.foldl_cons]
    have h1 : sockStep ⟨true, a⟩ .connectError = ⟨true, a + 1⟩ := rfl
    rw [h1, ih]
    congr 1
    omega

/-- C6: every input containing the quoted tree-presence marker together
with a template keyword (`react` or `package.json`) makes the decoder
return the tree-presence flag with its fixed notice body, independent of
everything else in the input — the tier-1 short-circuit decides the
result before (and regardless of) any structural parse. -/
theorem c6_template_short_circuit (s : String)
    (h1 : jsIncludes s "\"fileTree\"" = true)
    (h2 : jsIncludes s "react" = true ∨ jsIncludes s "package.json" = true) :
    sanitizeJsonString (Jv.str s)
      = Jv.obj [("text", Jv.str reactNotice), ("fileTree", Jv.bool true)] := by
  have hc : tierOneCond s = true := by
    unfold tierOneCond
    rcases h2 with h2 | h2 <;> simp [h1, h2]
  simp [sanitizeJsonString, hc]

/-- Witness for C6 at a concrete payload. -/
theorem c6_witness :
    jsIncludes "\x7b\"fileTree\": true\x7d react" "\"fileTree\"" = true ∧
    sanitizeJsonString (Jv.str "\x7b\"fileTree\": true\x7d react")
      = Jv.obj [("text", Jv.str reactNotice), ("fileTree", Jv.bool true)] :=
  ⟨rfl, c6_template_short_circuit _ rfl (Or.inl rfl)⟩

/-- C9: under the tier-1 condition the decoder can never produce a
`TextWithTree`-shaped value — even a fully well-formed payload whose
`fileTree` field is a complete structural map is short-circuited to the
boolean presence flag, so its inlined tree is never structurally decoded. -/
theorem c9_no_textWithTree (s : String)
    (h1 : jsIncludes s "\"fileTree\"" = true)
    (h2 : jsIncludes s "react" = true ∨ jsIncludes s "package.json" = true) :
    isTextWithTree (sanitizeJsonString (Jv.str s)) = false := by
  have hc : tierOneCond s = true := by
    unfold tierOneCond
    rcases h2 with h2 | h2 <;> simp [h1, h2]
  simp only [sanitizeJsonString, hc, if_true]
  rfl

/-- Witness for C9: a fully well-formed JSON payload whose `fileTree` is a
structural map (the strict parse of it, run on its own, would yield a
`TextWithTree`-shaped object) still never comes out of the decoder. -/
theorem c9_witness :
    (match jsonParse "\x7b\"text\":\"hi\",\"fileTree\":\x7b\"package.json\":\x7b\"file\":\x7b\"contents\":\"x\"\x7d\x7d\x7d\x7d" with
      | some v => isTextWithTree v
      | none => false) = true ∧
    isTextWithTree (sanitizeJsonString
      (Jv.str "\x7b\"text\":\"hi\",\"fileTree\":\x7b\"package.json\":\x7b\"file\":\x7b\"contents\":\"x\"\x7d\x7d\x7d\x7d")) = false :=
  ⟨rfl, c9_no_textWithTree _ rfl (Or.inr rfl)⟩

/-- Shape predicate for strings among JS values. -/
def jvIsString : Jv → Bool
  | .str _ => true
  | _ => false

/-- C10: a non-string argument passes through the decoder unchanged —
`typeof jsonString !== 'string'` returns the value as-is, producing no
`DecodedContent` variant and throwing nothing. -/
theorem c10_passthrough (v : Jv) (h : jvIsString v = false) :
    sanitizeJsonString v = v := by
  cases v with
  | str s => simp [jvIsString] at h
  | null => rfl
  | undefined => rfl
  | bool b => rfl
  | num l => rfl
  | arr xs => rfl
  | obj fs => rfl

/-- Witness for C10 at a concrete non-string value. -/
theorem c10_witness :
    jvIsString (Jv.num "42") = false ∧ sanitizeJsonString (Jv.num "42") = Jv.num "42" :=
  ⟨rfl, c10_passthrough _ rfl⟩

/-- C7 (amended): for every input that does not trigger the tier-1
template short-circuit, on which the strict parse fails and in which the
extraction regex captures a non-empty body, the decoder recovers via tier
3 and returns the text object with the capture unescaped — not the
`Unparseable` fallback. -/
theorem c7_field_extraction (s b : String)
    (h1 : tierOneCond s = false)
    (h2 : jsonParse s = none)
    (h3 : extractTextField s = some b)
    (h4 : b ≠ "") :
    sanitizeJsonString (Jv.str s) = Jv.obj [("text", Jv.str (unescapeText b))] := by
  simp only [sanitizeJsonString, h1, Bool.false_eq_true, if_false, h2, h3, h4, ite_false]

/-- Witness for C7 at the spec's own truncated, unterminated-string
payload (`body` is the field the source calls `text`): the strict parse
fails, tier 3 captures `partial...` and the decoder returns it as text. -/
theorem c7_witness :
    tierOneCond "\x7b\"text\":\"partial..." = false ∧
    jsonParse "\x7b\"text\":\"partial..." = none ∧
    extractTextField "\x7b\"text\":\"partial..." = some "partial..." ∧
    sanitizeJsonString (Jv.str "\x7b\"text\":\"partial...")
      = Jv.obj [("text", Jv.str (unescapeText "partial..."))] :=
  ⟨rfl, rfl, rfl, c7_field_extraction _ _ rfl rfl rfl (by decide)⟩

/-- C7 (counterexample): an input on which the strict parse fails and
whose text field is locatable and non-empty, but which also carries the
tier-1 markers — the decoder returns the tree-presence flag, not the
extracted text, because tier 1 runs before the parse is ever attempted. -/
theorem c7_cex :
    jsonParse "\x7b\"fileTree\" react \"text\":\"hi" = none ∧
    extractTextField "\x7b\"fileTree\" react \"text\":\"hi" = some "hi" ∧
    sanitizeJsonString (Jv.str "\x7b\"fileTree\" react \"text\":\"hi")
      = Jv.obj [("text", Jv.str reactNotice), ("fileTree", Jv.bool true)] ∧
    sanitizeJsonString (Jv.str "\x7b\"fileTree\" react \"text\":\"hi")
      ≠ Jv.obj [("text", Jv.str (unescapeText "hi"))] := by
  refine ⟨rfl, rfl, rfl, ?_⟩
  intro h
  rw [show sanitizeJsonString (Jv.str "\x7b\"fileTree\" react \"text\":\"hi")
      = Jv.obj [("text", Jv.str reactNotice), ("fileTree", Jv.bool true)] from rfl] at h
  simp at h

/-- C1 (amended): whenever the tier-1 short-circuit fires or the strict
parse fails, the decoder's (always-terminating, never-throwing) result is
one of the four `DecodedContent` shapes. -/
theorem c1_decode_classified (s : String)
    (h : tierOneCond s = true ∨ jsonParse s = none) :
    isDecodedContent (sanitizeJsonString (Jv.str s)) = true := by
  by_cases hc : tierOneCond s = true
  · simp only [sanitizeJsonString, hc, if_true]
    rfl
  · have hc' : tierOneCond s = false := by simpa using hc
    have hp : jsonParse s = none := h.resolve_left hc
    simp only [sanitizeJsonString, hc', Bool.false_eq_true, if_false, hp]
    cases he : extractTextField s with
    | none => exact isDecodedContent_fallback s
    | some t =>
      by_cases ht : t = ""
      · simp only [ht, ite_true]
        exact isDecodedContent_fallback s
      · simp only [ht, ite_false]
        rfl

/-- Witness for C1 at an input with no structure at all: the parse fails
and the result is the `Unparseable`-shaped excerpt object. -/
theorem c1_witness :
    (tierOneCond "garbage with no body field" = true
      ∨ jsonParse "garbage with no body field" = none) ∧
    isDecodedContent (sanitizeJsonString (Jv.str "garbage with no body field")) = true :=
  ⟨Or.inr rfl, c1_decode_classified _ (Or.inr rfl)⟩

/-- C1 (counterexample): on a well-formed JSON payload that is not an
object — here the JSON document `"hi"` — the strict-parse tier returns
the parsed value verbatim, a bare string, which is none of the four
`DecodedContent` variants (though the decoder still terminates without
throwing). -/
theorem c1_cex :
    sanitizeJsonString (Jv.str "\"hi\"") = Jv.str "hi" ∧
    isDecodedContent (sanitizeJsonString (Jv.str "\"hi\"")) = false :=
  ⟨rfl, rfl⟩

/-- C8: for messages not authored by the automated participant the
handler matches the lowered raw text against the fixed trigger phrases by
substring, so the react directive fires with arbitrary surrounding text
(and arbitrary letter case, witnessed by the upper-case instance), the
spec's example phrase yields the react-scaffold directive, and text
matching no trigger yields no directive. -/
theorem c8_recognize (pre post s : String)
    (h1 : jsIncludes (jsToLower s) "@ai create react app" = false)
    (h2 : jsIncludes (jsToLower s) "@ai create express server" = false)
    (h3 : jsIncludes (jsToLower s) "@ai create an express server" = false) :
    recognize false (pre ++ "@ai create react app" ++ post) = some Directive.createReactApp
    ∧ recognize false s = none
    ∧ recognize false "please @ai create react app now" = some Directive.createReactApp
    ∧ recognize false "PLEASE @AI CREATE REACT APP NOW" = some Directive.createReactApp := by
  refine ⟨?_, ?_, rfl, rfl⟩
  · have hdata : (jsToLower (pre ++ "@ai create react app" ++ post)).data
        = (pre.data.map Char.toLower)
          ++ ("@ai create react app".data ++ (post.data.map Char.toLower)) := by
      show ((pre ++ "@ai create react app" ++ post).data.map Char.toLower) = _
      rw [stringData_append, stringData_append, List.map_append, List.map_append]
      rw [show ("@ai create react app".data.map Char.toLower)
          = "@ai create react app".data from rfl]
      rw [List.append_assoc]
    have hinc : jsIncludes (jsToLower (pre ++ "@ai create react app" ++ post))
        "@ai create react app" = true := by
      unfold jsIncludes
      rw [hdata]
      exact subChars_middle _ _ _
    simp [recognize, hinc]
  · simp [recognize, h1, h2, h3]

/-- Witness for C8 at concrete surroundings and a concrete non-matching
message. -/
theorem c8_witness :
    jsIncludes (jsToLower "hello") "@ai create react app" = false ∧
    (recognize false ("please " ++ "@ai create react app" ++ " now")
        = some Directive.createReactApp
      ∧ recognize false "hello" = none
      ∧ recognize false "please @ai create react app now" = some Directive.createReactApp
      ∧ recognize false "PLEASE @AI CREATE REACT APP NOW" = some Directive.createReactApp) :=
  ⟨rfl, c8_recognize "please " " now" "hello" rfl rfl rfl⟩

/-- C5: editing `dir/name` on a tree whose `dir` is a directory node
containing the leaf `name` succeeds and rebuilds the tree with exactly
that leaf replaced: the new children map holds the new contents under
`name` and agrees with the old one on every sibling, the directory node
agrees with the old one on every other field, and the root map agrees
with the old one on every other entry. -/
theorem c5_editFile_frame (fs nfs cfs : List (String × Jv)) (dir file c : String) (old : Jv)
    (hd : '/' ∉ dir.data) (hf : '/' ∉ file.data)
    (hnode : objLookup fs dir = some (Jv.obj nfs))
    (hchild : objLookup nfs "directory" = some (Jv.obj cfs))
    (_hleaf : objLookup cfs file = some old) :
    editFile (Jv.obj fs) (dir ++ "/" ++ file) c
      = Except.ok (Jv.obj (objUpdate fs dir (Jv.obj (objUpdate nfs "directory"
          (Jv.obj (objUpdate cfs file (mkFileLeaf c)))))))
    ∧ objLookup (objUpdate cfs file (mkFileLeaf c)) file = some (mkFileLeaf c)
    ∧ (∀ k, k ≠ file → objLookup (objUpdate cfs file (mkFileLeaf c)) k = objLookup cfs k)
    ∧ (∀ k, k ≠ "directory" →
        objLookup (objUpdate nfs "directory" (Jv.obj (objUpdate cfs file (mkFileLeaf c)))) k
          = objLookup nfs k)
    ∧ objLookup (objUpdate fs dir (Jv.obj (objUpdate nfs "directory"
          (Jv.obj (objUpdate cfs file (mkFileLeaf c)))))) dir
        = some (Jv.obj (objUpdate nfs "directory" (Jv.obj (objUpdate cfs file (mkFileLeaf c)))))
    ∧ (∀ k, k ≠ dir →
        objLookup (objUpdate fs dir (Jv.obj (objUpdate nfs "directory"
          (Jv.obj (objUpdate cfs file (mkFileLeaf c)))))) k = objLookup fs k) := by
  refine ⟨?_, objLookup_update_self _ _ _,
    fun k hk => objLookup_update_ne _ _ _ _ hk,
    fun k hk => objLookup_update_ne _ _ _ _ hk,
    objLookup_update_self _ _ _,
    fun k hk => objLookup_update_ne _ _ _ _ hk⟩
  simp [editFile, path_hasSlash, path_split dir file hd hf, path_split_data dir file hd hf,
    stringMk_data, jsMember, hnode, hchild, spreadFields]

/-- Concrete children map for the C5 witness. -/
def wTreeChildren : List (String × Jv) := [("App.js", mkFileLeaf "old"), ("index.js", mkFileLeaf "idx")]

/-- Concrete directory node for the C5 witness. -/
def wTreeNode : List (String × Jv) := [("directory", Jv.obj wTreeChildren)]

/-- Concrete root map for the C5 witness. -/
def wTreeRoot : List (String × Jv) := [("src", Jv.obj wTreeNode), ("package.json", mkFileLeaf "pkg")]

/-- Witness for C5: the spec's own `src/App.js` example, with a sibling
leaf and another root entry whose before/after lookups coincide. -/
theorem c5_witness :
    objLookup wTreeRoot "src" = some (Jv.obj wTreeNode) ∧
    objLookup wTreeChildren "App.js" = some (mkFileLeaf "old") ∧
    editFile (Jv.obj wTreeRoot) ("src" ++ "/" ++ "App.js") "new"
      = Except.ok (Jv.obj (objUpdate wTreeRoot "src" (Jv.obj (objUpdate wTreeNode "directory"
          (Jv.obj (objUpdate wTreeChildren "App.js" (mkFileLeaf "new"))))))) ∧
    objLookup (objUpdate wTreeChildren "App.js" (mkFileLeaf "new")) "index.js"
      = objLookup wTreeChildren "index.js" ∧
    objLookup (objUpdate wTreeRoot "src" (Jv.obj (objUpdate wTreeNode "directory"
          (Jv.obj (objUpdate wTreeChildren "App.js" (mkFileLeaf "new")))))) "package.json"
      = objLookup wTreeRoot "package.json" :=
  ⟨rfl, rfl,
    (c5_editFile_frame wTreeRoot wTreeNode wTreeChildren "src" "App.js" "new" (mkFileLeaf "old")
      (by decide) (by decide) rfl rfl rfl).1,
    (c5_editFile_frame wTreeRoot wTreeNode wTreeChildren "src" "App.js" "new" (mkFileLeaf "old")
      (by decide) (by decide) rfl rfl rfl).2.2.1 "index.js" (by decide),
    (c5_editFile_frame wTreeRoot wTreeNode wTreeChildren "src" "App.js" "new" (mkFileLeaf "old")
      (by decide) (by decide) rfl rfl rfl).2.2.2.2.2 "package.json" (by decide)⟩

/-- C3 (amended): when the directory segment of a two-segment path does
not exist as a directory node, the edit handler never produces a graceful
path error. If the segment is entirely absent, `fileTree[dir].directory`
throws a `TypeError` (so no state update happens and the tree is left
unchanged); if the segment exists but has no `directory` field (a file
leaf), the handler instead succeeds and grafts a fresh `directory`
mapping holding the new leaf onto that node, modifying the tree. -/
theorem c3_no_pathError (fs nfs : List (String × Jv)) (dir file c : String)
    (hd : '/' ∉ dir.data) (hf : '/' ∉ file.data) :
    (objLookup fs dir = none →
      editFile (Jv.obj fs) (dir ++ "/" ++ file) c = Except.error JErr.typeError)
    ∧ (objLookup fs dir = some (Jv.obj nfs) → objLookup nfs "directory" = none →
      editFile (Jv.obj fs) (dir ++ "/" ++ file) c
        = Except.ok (Jv.obj (objUpdate fs dir (Jv.obj (objUpdate nfs "directory"
            (Jv.obj [(file, mkFileLeaf c)])))))) := by
  constructor
  · intro hn
    simp [editFile, path_hasSlash, path_split dir file hd hf, path_split_data dir file hd hf,
      stringMk_data, jsMember, hn, Option.getD, spreadFields]
  · intro hn hcd
    simp [editFile, path_hasSlash, path_split dir file hd hf, path_split_data dir file hd hf,
      stringMk_data, jsMember, hn, hcd, Option.getD, spreadFields, objUpdate, objHasKey]

/-- Witness for C3's amended statement, at both shapes of missing
directory. -/
theorem c3_witness :
    objLookup [] "missing" = none ∧
    editFile (Jv.obj []) ("missing" ++ "/" ++ "App.js") "x" = Except.error JErr.typeError ∧
    objLookup [("missing", mkFileLeaf "c")] "missing"
      = some (Jv.obj [("file", Jv.obj [("contents", Jv.str "c")])]) ∧
    editFile (Jv.obj [("missing", mkFileLeaf "c")]) ("missing" ++ "/" ++ "App.js") "x"
      = Except.ok (Jv.obj (objUpdate [("missing", mkFileLeaf "c")] "missing"
          (Jv.obj (objUpdate [("file", Jv.obj [("contents", Jv.str "c")])] "directory"
            (Jv.obj [("App.js", mkFileLeaf "x")]))))) :=
  ⟨rfl,
    (c3_no_pathError [] [] "missing" "App.js" "x" (by decide) (by decide)).1 rfl,
    rfl,
    (c3_no_pathError [("missing", mkFileLeaf "c")] [("file", Jv.obj [("contents", Jv.str "c")])]
      "missing" "App.js" "x" (by decide) (by decide)).2 rfl rfl⟩

/-- C3 (counterexample): at the spec's own example `missing/App.js` the
handler throws a `TypeError` instead of returning a path error, and when
`missing` exists as a file leaf it silently auto-creates a `directory`
mapping next to the leaf, changing the tree. -/
theorem c3_cex :
    editFile (Jv.obj []) "missing/App.js" "x" = Except.error JErr.typeError ∧
    editFile (Jv.obj [("missing", mkFileLeaf "c")]) "missing/App.js" "x"
      = Except.ok (Jv.obj [("missing", Jv.obj [("file", Jv.obj [("contents", Jv.str "c")]),
          ("directory", Jv.obj [("App.js", mkFileLeaf "x")])])]) :=
  ⟨rfl, rfl⟩

/-- C2 (amended): the mount pipeline is last-completion-wins, not
last-request-wins — every settling mount applies its own tree to both the
sandbox and the canonical state regardless of when it was requested,
while a replace request alone changes neither; hence the final state is
the tree of whichever mount settles last. -/
theorem c2_completion_wins (st : SyncState) (i : Nat) (t u : Jv)
    (h : st.pending.get? i = some t) :
    ((syncStep st (.settle i)).fileTree = t
      ∧ (syncStep st (.settle i)).mounted = some t)
    ∧ ((syncStep st (.replace u)).fileTree = st.fileTree
      ∧ (syncStep st (.replace u)).mounted = st.mounted) := by
  simp only [List.get?_eq_getElem?] at h
  constructor
  · simp [syncStep, h]
  · simp [syncStep]

/-- Witness for C2's amended statement: one pending older mount settling
after the state already holds a newer tree drags both the sandbox and the
canonical tree back to the older one. -/
theorem c2_witness :
    ((⟨cexTreeB, some cexTreeB, [cexTreeA]⟩ : SyncState).pending.get? 0 = some cexTreeA) ∧
    (((syncStep ⟨cexTreeB, some cexTreeB, [cexTreeA]⟩ (.settle 0)).fileTree = cexTreeA
      ∧ (syncStep ⟨cexTreeB, some cexTreeB, [cexTreeA]⟩ (.settle 0)).mounted = some cexTreeA)
    ∧ ((syncStep ⟨cexTreeB, some cexTreeB, [cexTreeA]⟩ (.replace cexTreeB)).fileTree = cexTreeB
      ∧ (syncStep ⟨cexTreeB, some cexTreeB, [cexTreeA]⟩ (.replace cexTreeB)).mounted
          = some cexTreeB)) :=
  ⟨rfl, c2_completion_wins ⟨cexTreeB, some cexTreeB, [cexTreeA]⟩ 0 cexTreeA cexTreeB rfl⟩

/-- C2 (counterexample): `replaceTree(T1)` then `replaceTree(T2)` with
T2's mount settling first and T1's settling second — both mounts have
settled (nothing pending), yet the sandbox's mounted state and the
canonical tree both end at T1, not T2. -/
theorem c2_cex :
    (syncRun ⟨Jv.obj [], none, []⟩
        [.replace cexTreeA, .replace cexTreeB, .settle 1, .settle 0]).pending = []
    ∧ (syncRun ⟨Jv.obj [], none, []⟩
        [.replace cexTreeA, .replace cexTreeB, .settle 1, .settle 0]).fileTree = cexTreeA
    ∧ (syncRun ⟨Jv.obj [], none, []⟩
        [.replace cexTreeA, .replace cexTreeB, .settle 1, .settle 0]).mounted = some cexTreeA
    ∧ cexTreeA ≠ cexTreeB := by
  refine ⟨rfl, rfl, rfl, ?_⟩
  intro h
  simp [cexTreeA, cexTreeB] at h

/-- C4 (amended): the reconnect counter is unbounded — after a valid
initialization followed by `n` connect failures it reads exactly `n`,
with no cap applied (the cap constant only gates a log line and the
transport's own retry budget); only a successful connect resets it to 0,
and re-initialization (the manual retry path) leaves it unchanged, so no
manual reset of the counter exists. -/
theorem c4_counter_unbounded (n : Nat) (st : SockState) (b : Bool)
    (hs : st.socketExists = true) :
    sockRun ([SockEv.initSocket true] ++ List.replicate n SockEv.connectError)
        = ⟨true, n⟩
    ∧ (sockStep st .connectOk).reconnectAttempts = 0
    ∧ (sockStep st (.initSocket b)).reconnectAttempts = st.reconnectAttempts := by
  refine ⟨?_, by simp [sockStep, hs], by cases b <;> simp [sockStep]⟩
  show (List.replicate n SockEv.connectError).foldl sockStep (sockStep sockInit (.initSocket true))
      = (⟨true, n⟩ : SockState)
  have h0 : sockStep sockInit (.initSocket true) = ⟨true, 0⟩ := rfl
  rw [h0, sockRun_replicate_errors]
  congr 1
  omega

/-- Witness for C4's amended statement with more failures than the cap. -/
theorem c4_witness :
    (⟨true, 3⟩ : SockState).socketExists = true ∧
    (sockRun ([SockEv.initSocket true] ++ List.replicate 7 SockEv.connectError)
        = ⟨true, 7⟩
    ∧ (sockStep ⟨true, 3⟩ .connectOk).reconnectAttempts = 0
    ∧ (sockStep ⟨true, 3⟩ (.initSocket true)).reconnectAttempts
        = (⟨true, 3⟩ : SockState).reconnectAttempts) :=
  ⟨rfl, c4_counter_unbounded 7 ⟨true, 3⟩ true rfl⟩

/-- C4 (counterexample): a reachable trace — five failures under the
first initialization, then the manual retry path (which does not reset
the counter) and one more failure — leaves `reconnectAttempts` at 6,
strictly above `maxReconnectAttempts = 5`: the claimed invariant
`reconnectAttempts ≤ maxReconnectAttempts` does not hold. -/
theorem c4_cex :
    (sockRun sockCexTrace).reconnectAttempts = 6
    ∧ maxReconnectAttempts < (sockRun sockCexTrace).reconnectAttempts := by
  refine ⟨rfl, ?_⟩
  show maxReconnectAttempts < (sockRun sockCexTrace).reconnectAttempts
  decide
